import Mathlib

/-!
Shallow embedding of the beacon-kit consensus–execution middleware core:
the ABCI middleware (`mod/runtime/pkg/middleware/abci.go`), the validator
block-builder helpers, the ABCI request extraction helpers
(`mod/runtime/abci/types/block.go`), the post-block forkchoice update, and
the hex formatting primitives (`mod/primitives/pkg/encoding/hex/format.go`).

Go strings and byte slices are modelled as `List Char` and `List Nat`;
machine integers (`math.Slot`, i.e. `uint64`) as `Nat` with explicit
`% 2^64` where Go wraparound matters; fallible Go calls as `Except` or as
`Option value × Option error` pairs mirroring Go multi-returns; external
collaborators (dispatcher responders, gossipers, SSZ codecs, the state
processor) as explicit parameters recording their outcomes.
-/

/- ------------------------------------------------------------------ -/
/-  hex/format.go                                                      -/
/- ------------------------------------------------------------------ -/

/-- `has0xPrefix` from `mod/primitives/pkg/encoding/hex/format.go`:
true if the string has at least two characters, the first is `0` and the
second is `x` or `X`. -/
def has0xPrefix (s : List Char) : Bool :=
  match s with
  | c0 :: c1 :: _ => c0 == '0' && (c1 == 'x' || c1 == 'X')
  | _ => false

/-- `ensure0xPrefix` from `format.go`: returns `s` unchanged when
`has0xPrefix s`, otherwise prepends the two characters `0x`. -/
def ensure0xPrefix (s : List Char) : List Char :=
  if has0xPrefix s then s else '0' :: 'x' :: s

/-- `ensureStringInvariants` from `format.go`: an empty string is replaced
by `"0"`, then `ensure0xPrefix` is applied. -/
def ensureStringInvariants (s : List Char) : List Char :=
  ensure0xPrefix (if s.length = 0 then ['0'] else s)

/- ------------------------------------------------------------------ -/
/-  sendNextFCUWithoutAttributes                                       -/
/- ------------------------------------------------------------------ -/

/-- The fields of the latest execution payload header that
`sendNextFCUWithoutAttributes` reads (block hash and parent hash),
hashes abstracted as `Nat`. -/
structure ExecutionPayloadHeaderM where
  blockHash : Nat
  parentHash : Nat
  deriving DecidableEq, Repr

/-- `engineprimitives.ForkchoiceStateV1`: the head/safe/finalized triple
sent to the execution client. -/
structure ForkchoiceStateV1 where
  headBlockHash : Nat
  safeBlockHash : Nat
  finalizedBlockHash : Nat
  deriving DecidableEq, Repr

/-- `BuildForkchoiceUpdateRequestNoAttrs`: packages a forkchoice state and
a fork version into a forkchoice-update request with no payload
attributes. -/
def BuildForkchoiceUpdateRequestNoAttrs
    (fcs : ForkchoiceStateV1) (forkVersion : Nat) :
    ForkchoiceStateV1 × Nat :=
  (fcs, forkVersion)

/-- `sendNextFCUWithoutAttributes` from the blockchain service: builds the
forkchoice-update request passed to `NotifyForkchoiceUpdate`, with
`HeadBlockHash = lph.GetBlockHash()`,
`SafeBlockHash = lph.GetParentHash()`,
`FinalizedBlockHash = lph.GetParentHash()`, and the active fork version
for the block's slot. -/
def sendNextFCUWithoutAttributes
    (forkVersionForSlot : Nat → Nat)
    (blkSlot : Nat)
    (lph : ExecutionPayloadHeaderM) :
    ForkchoiceStateV1 × Nat :=
  BuildForkchoiceUpdateRequestNoAttrs
    { headBlockHash := lph.blockHash
      safeBlockHash := lph.parentHash
      finalizedBlockHash := lph.parentHash }
    (forkVersionForSlot blkSlot)

/- ------------------------------------------------------------------ -/
/-  Errors (mod/errors)                                                -/
/- ------------------------------------------------------------------ -/

/-- A Go error value from the `mod/errors` package, carrying its kind and
whether it is fatal. Modelled from the spec: the two-tier error taxonomy
(fatal vs non-fatal, with `WrapNonFatal` marking an error non-fatal and
`IsFatal` testing the mark); the `mod/errors` package itself is not among
the provided source files. -/
inductive GoError where
  | fatal (kind : String) : GoError
  | nonFatal (kind : String) : GoError
  deriving DecidableEq, Repr

/-- `errors.IsFatal` on a possibly-nil Go error: a nil error is not fatal;
a non-nil error is fatal unless marked non-fatal. Modelled from the spec's
error taxonomy. -/
def errorsIsFatal : Option GoError → Bool
  | none => false
  | some (GoError.fatal _) => true
  | some (GoError.nonFatal _) => false

/-- `errors.WrapNonFatal`: marks an error as non-fatal (nil stays nil).
Modelled from the spec's error taxonomy. -/
def errorsWrapNonFatal : Option GoError → Option GoError
  | none => none
  | some (GoError.fatal k) => some (GoError.nonFatal k)
  | some (GoError.nonFatal k) => some (GoError.nonFatal k)

/- ------------------------------------------------------------------ -/
/-  ABCI middleware (mod/runtime/pkg/middleware/abci.go)               -/
/- ------------------------------------------------------------------ -/

/-- Dispatcher topics requested by the middleware; a run of a middleware
phase is recorded as the list of topics it dispatched, in order. -/
inductive Msg where
  | BuildBeaconBlockAndSidecars
  | VerifyBeaconBlock
  | VerifySidecars
  | ProcessSidecars
  | FinalizeBeaconBlock
  deriving DecidableEq, Repr

/-- Byte slices, as in gossiper outputs and ABCI txs. -/
abbrev Bytes := List Nat

/-- Validator updates returned to the consensus engine (abstract). -/
abbrev ValidatorUpdates := List Nat

/-- `cmtabci.ProcessProposalResponse` status values. -/
inductive ProposalStatus where
  | ACCEPT
  | REJECT
  deriving DecidableEq, Repr

/-- `cmtabci.ProcessProposalResponse` (only the status field is set by the
middleware). -/
structure ProcessProposalResponse where
  status : ProposalStatus
  deriving DecidableEq, Repr

/-- `createProcessProposalResponse` from `abci.go`: status starts as
`REJECT`; when the error is not fatal, status becomes `ACCEPT` and the
error is replaced by nil. Returns the response together with the error
value the Go function returns. -/
def createProcessProposalResponse (err : Option GoError) :
    ProcessProposalResponse × Option GoError :=
  if errorsIsFatal err then ({ status := ProposalStatus.REJECT }, err)
  else ({ status := ProposalStatus.ACCEPT }, none)

/-- Outcomes of the external calls `ProcessProposal` makes, in program
order: the request cast, the block gossiper's `Request`, the
`VerifyBeaconBlock` responder, the blob gossiper's `Request`, and the
`VerifySidecars` responder. -/
structure PPEnv where
  reqOk : Bool
  blkRequest : Except GoError Unit
  verifyBlockErr : Option GoError
  scRequest : Except GoError Unit
  verifySidecarsErr : Option GoError

/-- `ProcessProposal` from `abci.go`, as a function of the outcomes of its
external calls. Returns the list of dispatcher topics requested (in
order), the response produced (none only on the request-type-cast
failure), and the error value returned to the caller. -/
def ProcessProposal (env : PPEnv) :
    List Msg × Option ProcessProposalResponse × Option GoError :=
  if env.reqOk = false then
    ([], none, some (GoError.fatal "ErrInvalidProcessProposalRequestType"))
  else
    match env.blkRequest with
    | Except.error e =>
        let r := createProcessProposalResponse (errorsWrapNonFatal (some e))
        ([], some r.1, r.2)
    | Except.ok _ =>
        match env.verifyBlockErr with
        | some e =>
            let r := createProcessProposalResponse (some e)
            ([Msg.VerifyBeaconBlock], some r.1, r.2)
        | none =>
            match env.scRequest with
            | Except.error e =>
                let r := createProcessProposalResponse (errorsWrapNonFatal (some e))
                ([Msg.VerifyBeaconBlock], some r.1, r.2)
            | Except.ok _ =>
                match env.verifySidecarsErr with
                | some e =>
                    let r := createProcessProposalResponse (some e)
                    ([Msg.VerifyBeaconBlock, Msg.VerifySidecars], some r.1, r.2)
                | none =>
                    let r := createProcessProposalResponse none
                    ([Msg.VerifyBeaconBlock, Msg.VerifySidecars], some r.1, r.2)

/-- The error value `ProcessProposal` hands to
`createProcessProposalResponse` on the path determined by `env` (nil when
every stage succeeds): gossiper request failures arrive wrapped non-fatal,
verification responder failures arrive unwrapped. -/
def ppEncounteredError (env : PPEnv) : Option GoError :=
  match env.blkRequest with
  | Except.error e => errorsWrapNonFatal (some e)
  | Except.ok _ =>
      match env.verifyBlockErr with
      | some e => some e
      | none =>
          match env.scRequest with
          | Except.error e => errorsWrapNonFatal (some e)
          | Except.ok _ =>
              match env.verifySidecarsErr with
              | some e => some e
              | none => none

/-- Outcomes of the external calls `EndBlock` makes:
`ExtractBlobsAndBlockFromRequest` on the stored finalize-block request,
the `ProcessSidecars` responder, and the `FinalizeBeaconBlock` responder
(its `Data()` and `Error()`). -/
structure EBEnv where
  extract : Except GoError Unit
  processSidecarsErr : Option GoError
  finalizeData : Option ValidatorUpdates
  finalizeErr : Option GoError

/-- `EndBlock` from `abci.go`, as a function of the outcomes of its
external calls. Returns the list of dispatcher topics requested (in
order), the validator updates, and the error returned to the consensus
engine. When extraction fails it returns nil updates and nil error by
design; when `ProcessSidecars` fails it returns that error without
requesting `FinalizeBeaconBlock`; otherwise it returns the
`FinalizeBeaconBlock` responder's data and error. -/
def EndBlock (env : EBEnv) :
    List Msg × Option ValidatorUpdates × Option GoError :=
  match env.extract with
  | Except.error _ => ([], none, none)
  | Except.ok _ =>
      match env.processSidecarsErr with
      | some e => ([Msg.ProcessSidecars], none, some e)
      | none =>
          ([Msg.ProcessSidecars, Msg.FinalizeBeaconBlock],
            env.finalizeData, env.finalizeErr)

/-- Outcomes of the external calls `PrepareProposal` makes: the
dispatcher's `BuildBeaconBlockAndSidecars` request itself, the build
responder's reply, and the two gossiper `Publish` calls. -/
structure PrepEnv where
  buildRequest : Except GoError Unit
  bundleErr : Option GoError
  publishBlock : Except GoError Bytes
  publishSidecars : Except GoError Bytes

/-- `handleBeaconBlockBundleResponse` from `abci.go`: on a response error
or either gossip failure return `(nil, nil, err)`; otherwise return the
two published byte slices. -/
def handleBeaconBlockBundleResponse (env : PrepEnv) :
    Option Bytes × Option Bytes × Option GoError :=
  match env.bundleErr with
  | some e => (none, none, some e)
  | none =>
      match env.publishBlock with
      | Except.error bbErr => (none, none, some bbErr)
      | Except.ok bbBz =>
          match env.publishSidecars with
          | Except.error scErr => (none, none, some scErr)
          | Except.ok scBz => (some bbBz, some scBz, none)

/-- `PrepareProposal` from `abci.go`: request a built beacon block bundle,
then gossip block and sidecars via `handleBeaconBlockBundleResponse`.
A dispatcher request failure returns `(nil, nil, err)`. -/
def PrepareProposal (env : PrepEnv) :
    Option Bytes × Option Bytes × Option GoError :=
  match env.buildRequest with
  | Except.error e => (none, none, some e)
  | Except.ok _ => handleBeaconBlockBundleResponse env

/- ------------------------------------------------------------------ -/
/-  Validator service (builder helpers)                                -/
/- ------------------------------------------------------------------ -/

/-- `2^64`: the modulus of Go's `uint64`, the representation of
`math.Slot`. -/
def u64Mod : Nat := 2 ^ 64

/-- The beacon state as seen by `prepareStateForBuilding`: only its slot
(`st.GetSlot()`), a `uint64` kept below `u64Mod`. -/
structure BeaconStateM where
  slot : Nat
  deriving DecidableEq, Repr

/-- `ErrNilPayload` from the validator service. -/
def ErrNilPayload : GoError := GoError.nonFatal "ErrNilPayload"

/-- `RetrievePayload` from the validator service, as a function of the
outcomes of its two external calls: `GetLatestExecutionPayloadHeader`
(whose block hash keys the lookup) and
`localBuilder.RetrieveOrBuildPayload`, a Go multi-return of a
possibly-nil envelope and a possibly-nil error (envelopes abstracted as
`Nat`). Returns the Go pair `(envelope, error)`. -/
def RetrievePayload
    (header : Except GoError Unit)
    (builderEnvelope : Option Nat) (builderErr : Option GoError) :
    Option Nat × Option GoError :=
  match header with
  | Except.error e => (none, some e)
  | Except.ok _ =>
      match builderErr with
      | some e => (none, some e)
      | none =>
          match builderEnvelope with
          | none => (none, some ErrNilPayload)
          | some envl => (some envl, none)

/-- `prepareStateForBuilding` from the validator service. `math.Slot` is
`uint64`, so `requestedSlot - stateSlot` is computed modulo `2^64`
(`slotDifference < 1` can therefore only mean `slotDifference == 0`).
The state processor's `ProcessSlot` (an external collaborator that
mutates the state handle) is passed as a function returning the possibly
failing updated state; on the `slotDifference == 1` branch the slot is
re-read and must equal the requested slot. Returns the final state so the
resulting slot is observable. -/
def prepareStateForBuilding
    (processSlot : BeaconStateM → Except GoError BeaconStateM)
    (st : BeaconStateM) (requestedSlot : Nat) :
    Except GoError BeaconStateM :=
  if (requestedSlot + u64Mod - st.slot) % u64Mod = 1 then
    match processSlot st with
    | Except.error e => Except.error e
    | Except.ok st2 =>
        if requestedSlot ≠ st2.slot then
          Except.error (GoError.fatal "requested slot could not be processed")
        else
          Except.ok st2
  else if (requestedSlot + u64Mod - st.slot) % u64Mod > 1 then
    Except.error (GoError.fatal "requested slot is too far ahead")
  else
    Except.error (GoError.fatal "requested slot is in the past")

/- ------------------------------------------------------------------ -/
/-  ABCI request extraction (mod/runtime/abci/types/block.go)          -/
/- ------------------------------------------------------------------ -/

/-- Error values of `mod/runtime/abci/types`, plus decoder failures from
the SSZ codecs the two extraction functions call. -/
inductive ABCITypesErr where
  | ErrNilABCIRequest
  | ErrNoBeaconBlockInRequest
  | ErrBzIndexOutOfBounds
  | ErrNilBeaconBlockInRequest
  | decodeErr (kind : String)
  deriving DecidableEq, Repr

/-- An `ABCIRequest` as consumed by the extraction functions: its
`GetTxs()` list, each tx a possibly-nil byte slice (a nil txs slice and
an empty one are both length 0 and are treated identically by the
source's `txs == nil || lenTxs == 0` test, so both are modelled as the
empty list). -/
structure ABCIRequestM where
  txs : List (Option Bytes)
  deriving DecidableEq, Repr

/-- `ReadOnlyBeaconBlockFromABCIRequest` from `block.go`:
nil request → `ErrNilABCIRequest`; nil/empty txs →
`ErrNoBeaconBlockInRequest`; index out of bounds →
`ErrBzIndexOutOfBounds`; nil tx at the index →
`ErrNilBeaconBlockInRequest`; otherwise decode via the external
`beacontypes.BeaconBlockFromSSZ` (passed as `blockFromSSZ`, blocks
abstracted as `Nat`). -/
def ReadOnlyBeaconBlockFromABCIRequest
    (blockFromSSZ : Bytes → Nat → Except ABCITypesErr Nat)
    (req : Option ABCIRequestM) (bzIndex : Nat) (forkVersion : Nat) :
    Except ABCITypesErr Nat :=
  match req with
  | none => Except.error ABCITypesErr.ErrNilABCIRequest
  | some r =>
      let txs := r.txs
      if txs.length = 0 then
        Except.error ABCITypesErr.ErrNoBeaconBlockInRequest
      else if bzIndex ≥ txs.length then
        Except.error ABCITypesErr.ErrBzIndexOutOfBounds
      else
        match txs.getD bzIndex none with
        | none => Except.error ABCITypesErr.ErrNilBeaconBlockInRequest
        | some blkBz => blockFromSSZ blkBz forkVersion

/-- `GetBlobSideCars` from `block.go`: the same request checks as
`ReadOnlyBeaconBlockFromABCIRequest`, then decode via the external
`BlobSidecars.UnmarshalSSZ` (passed as `unmarshalSSZ`, sidecar bundles
abstracted as `Nat`). -/
def GetBlobSideCars
    (unmarshalSSZ : Bytes → Except ABCITypesErr Nat)
    (req : Option ABCIRequestM) (bzIndex : Nat) :
    Except ABCITypesErr Nat :=
  match req with
  | none => Except.error ABCITypesErr.ErrNilABCIRequest
  | some r =>
      let txs := r.txs
      if txs.length = 0 then
        Except.error ABCITypesErr.ErrNoBeaconBlockInRequest
      else if bzIndex ≥ txs.length then
        Except.error ABCITypesErr.ErrBzIndexOutOfBounds
      else
        match txs.getD bzIndex none with
        | none => Except.error ABCITypesErr.ErrNilBeaconBlockInRequest
        | some sidecarBz => unmarshalSSZ sidecarBz

/- ------------------------------------------------------------------ -/
/-  Theorems                                                           -/
/- ------------------------------------------------------------------ -/

/-- Applying `ensure0xPrefix` always yields a string accepted by
`has0xPrefix`. -/
theorem has0xPrefix_ensure (s : List Char) :
    has0xPrefix (ensure0xPrefix s) = true := by
  by_cases h : has0xPrefix s = true
  · unfold ensure0xPrefix
    rw [if_pos h]
    exact h
  · unfold ensure0xPrefix
    rw [if_neg h]
    rfl

/-- C10 counterexample: the input `"0XAB"` already satisfies
`has0xPrefix` (upper-case `X` is accepted), so `ensureStringInvariants`
returns it unchanged — and the result does not carry the literal
two-character `"0x"` prefix the claim asserts. -/
theorem ensureStringInvariants_not_lowercase
    : ensureStringInvariants ['0', 'X', 'A', 'B'] = ['0', 'X', 'A', 'B'] ∧
      List.isPrefixOf ['0', 'x']
          (ensureStringInvariants ['0', 'X', 'A', 'B']) = false := by
  decide

/-- C10 (amended): for every input string `s`, `ensureStringInvariants s`
satisfies `has0xPrefix` (it begins with `0x` or `0X`); the empty string
maps to exactly `"0x0"`; `ensure0xPrefix` is idempotent; and
`has0xPrefix (ensure0xPrefix s)` holds for every `s`. -/
theorem ensureStringInvariants_spec (s : List Char) :
    has0xPrefix (ensureStringInvariants s) = true ∧
    ensureStringInvariants [] = ['0', 'x', '0'] ∧
    ensure0xPrefix (ensure0xPrefix s) = ensure0xPrefix s ∧
    has0xPrefix (ensure0xPrefix s) = true := by
  refine ⟨?_, by decide, ?_, has0xPrefix_ensure s⟩
  · unfold ensureStringInvariants
    exact has0xPrefix_ensure _
  · have h := has0xPrefix_ensure s
    show (if has0xPrefix (ensure0xPrefix s) = true then ensure0xPrefix s
          else '0' :: 'x' :: ensure0xPrefix s) = ensure0xPrefix s
    rw [if_pos h]

/-- C8: every forkchoice update sent without payload attributes carries
head equal to the latest execution payload header's block hash and both
safe and finalized equal to that header's parent hash. -/
theorem fcuWithoutAttributes_fields
    (forkVersionForSlot : Nat → Nat) (blkSlot : Nat)
    (lph : ExecutionPayloadHeaderM) :
    (sendNextFCUWithoutAttributes forkVersionForSlot blkSlot lph).1.headBlockHash
        = lph.blockHash ∧
    (sendNextFCUWithoutAttributes forkVersionForSlot blkSlot lph).1.safeBlockHash
        = lph.parentHash ∧
    (sendNextFCUWithoutAttributes forkVersionForSlot blkSlot lph).1.finalizedBlockHash
        = lph.parentHash := by
  refine ⟨rfl, rfl, rfl⟩

/-- C1: whenever `ProcessProposal` produces a response (the request cast
succeeded), its status is `ACCEPT` exactly when the error encountered
during block and sidecar verification is not fatal — a non-fatal error or
no error yields `ACCEPT` with the error suppressed to nil, while a fatal
error yields `REJECT` with the error returned. -/
theorem processProposal_accept_iff_nonfatal (env : PPEnv)
    (h : env.reqOk = true) :
    (ProcessProposal env).2.1 =
        some { status :=
          if errorsIsFatal (ppEncounteredError env) = true
          then ProposalStatus.REJECT else ProposalStatus.ACCEPT } ∧
    (ProcessProposal env).2.2 =
        (if errorsIsFatal (ppEncounteredError env) = true
         then ppEncounteredError env else none) := by
  obtain ⟨rq, br, vb, sr, vs⟩ := env
  replace h : rq = true := h
  subst h
  rcases br with e1 | u1
  · cases e1 <;>
      simp [ProcessProposal, ppEncounteredError,
        createProcessProposalResponse, errorsIsFatal, errorsWrapNonFatal]
  · rcases vb with _ | e2
    · rcases sr with e3 | u2
      · cases e3 <;>
          simp [ProcessProposal, ppEncounteredError,
            createProcessProposalResponse, errorsIsFatal, errorsWrapNonFatal]
      · rcases vs with _ | e4
        · simp [ProcessProposal, ppEncounteredError,
            createProcessProposalResponse, errorsIsFatal]
        · cases e4 <;>
            simp [ProcessProposal, ppEncounteredError,
              createProcessProposalResponse, errorsIsFatal]
    · cases e2 <;>
        simp [ProcessProposal, ppEncounteredError,
          createProcessProposalResponse, errorsIsFatal]

/-- C1 witness: a fatal block-verification error yields a `REJECT`
response with the error returned. -/
theorem processProposal_accept_iff_nonfatal_witness :
    (PPEnv.mk true (Except.ok ()) (some (GoError.fatal "sig")) (Except.ok ())
        none).reqOk = true ∧
    (ProcessProposal (PPEnv.mk true (Except.ok ())
        (some (GoError.fatal "sig")) (Except.ok ()) none)).2.1 =
      some { status :=
        if errorsIsFatal (ppEncounteredError (PPEnv.mk true (Except.ok ())
            (some (GoError.fatal "sig")) (Except.ok ()) none)) = true
        then ProposalStatus.REJECT else ProposalStatus.ACCEPT } ∧
    (ProcessProposal (PPEnv.mk true (Except.ok ())
        (some (GoError.fatal "sig")) (Except.ok ()) none)).2.2 =
      (if errorsIsFatal (ppEncounteredError (PPEnv.mk true (Except.ok ())
          (some (GoError.fatal "sig")) (Except.ok ()) none)) = true
       then ppEncounteredError (PPEnv.mk true (Except.ok ())
          (some (GoError.fatal "sig")) (Except.ok ()) none) else none) :=
  ⟨rfl,
    (processProposal_accept_iff_nonfatal _ rfl).1,
    (processProposal_accept_iff_nonfatal _ rfl).2⟩

/-- C3: inside `ProcessProposal` the `VerifyBeaconBlock` request is issued
strictly before any `VerifySidecars` request (the dispatched-topic trace
is a prefix of `[VerifyBeaconBlock, VerifySidecars]`, and whenever
`VerifySidecars` appears it is preceded by `VerifyBeaconBlock`); and when
block verification returns an error the `VerifySidecars` request is never
issued. -/
theorem processProposal_verify_order (env : PPEnv) :
    ((ProcessProposal env).1 = [] ∨
     (ProcessProposal env).1 = [Msg.VerifyBeaconBlock] ∨
     (ProcessProposal env).1 = [Msg.VerifyBeaconBlock, Msg.VerifySidecars]) ∧
    (Msg.VerifySidecars ∈ (ProcessProposal env).1 →
      (ProcessProposal env).1 = [Msg.VerifyBeaconBlock, Msg.VerifySidecars]) ∧
    (∀ e, env.verifyBlockErr = some e →
      Msg.VerifySidecars ∉ (ProcessProposal env).1) := by
  obtain ⟨rq, br, vb, sr, vs⟩ := env
  cases rq <;> rcases br with e1 | u1 <;> rcases vb with _ | e2 <;>
    rcases sr with e3 | u2 <;> rcases vs with _ | e4 <;>
      simp [ProcessProposal, createProcessProposalResponse]

/-- C3 witness: on an all-success run the trace is exactly
`[VerifyBeaconBlock, VerifySidecars]`, and with a failing block
verification `VerifySidecars` is not issued. -/
theorem processProposal_verify_order_witness :
    (ProcessProposal (PPEnv.mk true (Except.ok ()) none (Except.ok ())
        none)).1 = [Msg.VerifyBeaconBlock, Msg.VerifySidecars] ∧
    Msg.VerifySidecars ∉
      (ProcessProposal (PPEnv.mk true (Except.ok ())
          (some (GoError.fatal "sig")) (Except.ok ()) none)).1 :=
  ⟨(processProposal_verify_order _).2.1 (by decide),
    (processProposal_verify_order _).2.2 (GoError.fatal "sig") rfl⟩

/-- C2: in `EndBlock`, once extraction succeeds the `ProcessSidecars`
request is issued first and `FinalizeBeaconBlock` is issued only after
`ProcessSidecars` completed without error; a `ProcessSidecars` failure is
surfaced and suppresses the `FinalizeBeaconBlock` request, and a
`FinalizeBeaconBlock` failure is surfaced. -/
theorem endBlock_sidecars_before_finalize (env : EBEnv)
    (h : env.extract = Except.ok ()) :
    ((EndBlock env).1 = [Msg.ProcessSidecars] ∨
     (EndBlock env).1 = [Msg.ProcessSidecars, Msg.FinalizeBeaconBlock]) ∧
    (Msg.FinalizeBeaconBlock ∈ (EndBlock env).1 →
      (EndBlock env).1 = [Msg.ProcessSidecars, Msg.FinalizeBeaconBlock] ∧
      env.processSidecarsErr = none) ∧
    (∀ e, env.processSidecarsErr = some e →
      Msg.FinalizeBeaconBlock ∉ (EndBlock env).1 ∧
      (EndBlock env).2.2 = some e) ∧
    (∀ e, env.processSidecarsErr = none → env.finalizeErr = some e →
      (EndBlock env).2.2 = some e) := by
  obtain ⟨ex, ps, fd, fe⟩ := env
  replace h : ex = Except.ok () := h
  subst h
  rcases ps with _ | e <;> simp [EndBlock]

/-- C2 witness: with a failing `ProcessSidecars` the finalize request is
never issued and the error is surfaced; with a succeeding
`ProcessSidecars` and a failing `FinalizeBeaconBlock` both requests are
issued in order and the finalize error is surfaced. -/
theorem endBlock_sidecars_before_finalize_witness :
    (Msg.FinalizeBeaconBlock ∉
        (EndBlock (EBEnv.mk (Except.ok ()) (some (GoError.fatal "kzg"))
            none none)).1 ∧
      (EndBlock (EBEnv.mk (Except.ok ()) (some (GoError.fatal "kzg"))
          none none)).2.2 = some (GoError.fatal "kzg")) ∧
    ((EndBlock (EBEnv.mk (Except.ok ()) none (some [1])
        (some (GoError.fatal "root")))).1 =
          [Msg.ProcessSidecars, Msg.FinalizeBeaconBlock] ∧
      (EBEnv.mk (Except.ok ()) none (some [1])
          (some (GoError.fatal "root"))).processSidecarsErr = none) ∧
    (EndBlock (EBEnv.mk (Except.ok ()) none (some [1])
        (some (GoError.fatal "root")))).2.2 = some (GoError.fatal "root") :=
  ⟨(endBlock_sidecars_before_finalize _ rfl).2.2.1 (GoError.fatal "kzg") rfl,
    (endBlock_sidecars_before_finalize _ rfl).2.1 (by decide),
    (endBlock_sidecars_before_finalize _ rfl).2.2.2 (GoError.fatal "root")
      rfl rfl⟩

/-- C9: when extraction of the beacon block and sidecars from the stored
finalize-block request fails, `EndBlock` dispatches nothing and returns
nil validator updates and a nil error. -/
theorem endBlock_extraction_failure_silent (env : EBEnv) (e : GoError)
    (h : env.extract = Except.error e) :
    EndBlock env = ([], none, none) := by
  obtain ⟨ex, ps, fd, fe⟩ := env
  replace h : ex = Except.error e := h
  subst h
  simp [EndBlock]

/-- C9 witness: a concrete failing extraction yields nil updates and nil
error. -/
theorem endBlock_extraction_failure_silent_witness :
    (EBEnv.mk (Except.error (GoError.fatal "bad ssz")) none none
        none).extract = Except.error (GoError.fatal "bad ssz") ∧
    EndBlock (EBEnv.mk (Except.error (GoError.fatal "bad ssz")) none none
        none) = ([], none, none) :=
  ⟨rfl, endBlock_extraction_failure_silent _ (GoError.fatal "bad ssz") rfl⟩

/-- C5: whenever `PrepareProposal` returns an error, both returned byte
slices are nil; and it never returns a proposal with exactly one of the
two components populated (the two components are always both present or
both absent). -/
theorem prepareProposal_empty_on_failure (env : PrepEnv) :
    ((PrepareProposal env).2.2 ≠ none →
      (PrepareProposal env).1 = none ∧ (PrepareProposal env).2.1 = none) ∧
    (PrepareProposal env).1.isSome = (PrepareProposal env).2.1.isSome := by
  obtain ⟨brq, be, pb, ps⟩ := env
  rcases brq with e1 | u1 <;> rcases be with _ | e2 <;>
    rcases pb with e3 | b1 <;> rcases ps with e4 | b2 <;>
      simp [PrepareProposal, handleBeaconBlockBundleResponse]

/-- C5 witness: a failing block gossip returns nil for both byte slices,
and on that run the two components are equally absent. -/
theorem prepareProposal_empty_on_failure_witness :
    ((PrepareProposal (PrepEnv.mk (Except.ok ()) none
        (Except.error (GoError.nonFatal "timeout")) (Except.ok [2]))).1 =
          none ∧
      (PrepareProposal (PrepEnv.mk (Except.ok ()) none
          (Except.error (GoError.nonFatal "timeout")) (Except.ok [2]))).2.1 =
            none) ∧
    (PrepareProposal (PrepEnv.mk (Except.ok ()) none
        (Except.error (GoError.nonFatal "timeout")) (Except.ok [2]))).1.isSome =
      (PrepareProposal (PrepEnv.mk (Except.ok ()) none
          (Except.error (GoError.nonFatal "timeout"))
          (Except.ok [2]))).2.1.isSome :=
  ⟨(prepareProposal_empty_on_failure _).1 (by decide),
    (prepareProposal_empty_on_failure _).2⟩

/-- C4: `prepareStateForBuilding` succeeds only when the `uint64` slot
difference `requested_slot - state.slot` equals 1, and on success the
resulting state's slot equals the requested slot (the state was advanced
by exactly one slot); for every other requested slot (difference 0 or
greater than 1, which by `uint64` wraparound includes every requested
slot at or before the state's slot) it returns an error. -/
theorem prepareStateForBuilding_exact_slot
    (processSlot : BeaconStateM → Except GoError BeaconStateM)
    (st : BeaconStateM) (requestedSlot : Nat) :
    (∀ st2,
      prepareStateForBuilding processSlot st requestedSlot = Except.ok st2 →
        (requestedSlot + u64Mod - st.slot) % u64Mod = 1 ∧
        st2.slot = requestedSlot) ∧
    ((requestedSlot + u64Mod - st.slot) % u64Mod ≠ 1 →
      ∃ e, prepareStateForBuilding processSlot st requestedSlot =
        Except.error e) := by
  constructor
  · intro st2 hok
    unfold prepareStateForBuilding at hok
    by_cases h1 : (requestedSlot + u64Mod - st.slot) % u64Mod = 1
    · rw [if_pos h1] at hok
      refine ⟨h1, ?_⟩
      rcases hps : processSlot st with e | st3
      · rw [hps] at hok
        simp at hok
      · rw [hps] at hok
        by_cases hne : requestedSlot ≠ st3.slot
        · simp [hne] at hok
        · push_neg at hne
          simp [hne] at hok
          rw [← hok]
          exact hne.symm
    · rw [if_neg h1] at hok
      by_cases h2 : (requestedSlot + u64Mod - st.slot) % u64Mod > 1
      · rw [if_pos h2] at hok
        simp at hok
      · rw [if_neg h2] at hok
        simp at hok
  · intro hne
    unfold prepareStateForBuilding
    rw [if_neg hne]
    by_cases h2 : (requestedSlot + u64Mod - st.slot) % u64Mod > 1
    · rw [if_pos h2]
      exact ⟨_, rfl⟩
    · rw [if_neg h2]
      exact ⟨_, rfl⟩

/-- C4 witness: with a state at slot 5 and a slot processor that advances
by one, requesting slot 6 succeeds with the state at slot 6, while
requesting slot 9 (difference 4) fails. -/
theorem prepareStateForBuilding_exact_slot_witness :
    (prepareStateForBuilding (fun s => Except.ok ⟨s.slot + 1⟩) ⟨5⟩ 6 =
        Except.ok ⟨6⟩ ∧
      (6 + u64Mod - (⟨5⟩ : BeaconStateM).slot) % u64Mod = 1 ∧
      (⟨6⟩ : BeaconStateM).slot = 6) ∧
    ((9 + u64Mod - (⟨5⟩ : BeaconStateM).slot) % u64Mod ≠ 1 ∧
      ∃ e, prepareStateForBuilding (fun s => Except.ok ⟨s.slot + 1⟩) ⟨5⟩ 9 =
        Except.error e) :=
  ⟨⟨rfl,
      (prepareStateForBuilding_exact_slot (fun s => Except.ok ⟨s.slot + 1⟩)
        ⟨5⟩ 6).1 ⟨6⟩ rfl⟩,
    by decide,
    (prepareStateForBuilding_exact_slot (fun s => Except.ok ⟨s.slot + 1⟩)
      ⟨5⟩ 9).2 (by decide)⟩

/-- C6: when the latest-execution-payload-header read succeeds and
`RetrieveOrBuildPayload` returns a nil envelope with a nil error,
`RetrievePayload` fails with `ErrNilPayload`; and whenever
`RetrievePayload` returns no error, it returns a non-nil envelope. -/
theorem retrievePayload_nil_envelope
    (header : Except GoError Unit)
    (builderEnvelope : Option Nat) (builderErr : Option GoError) :
    (header = Except.ok () → builderEnvelope = none → builderErr = none →
      RetrievePayload header builderEnvelope builderErr =
        (none, some ErrNilPayload)) ∧
    ((RetrievePayload header builderEnvelope builderErr).2 = none →
      ∃ x, (RetrievePayload header builderEnvelope builderErr).1 = some x) := by
  rcases header with e | u <;> rcases builderErr with _ | e2 <;>
    rcases builderEnvelope with _ | envl <;>
      simp [RetrievePayload, ErrNilPayload]

/-- C6 witness: a nil envelope with nil error yields `ErrNilPayload`, and
a run that returns no error carries an envelope. -/
theorem retrievePayload_nil_envelope_witness :
    RetrievePayload (Except.ok ()) none none = (none, some ErrNilPayload) ∧
    ∃ x, (RetrievePayload (Except.ok ()) (some 7) none).1 = some x :=
  ⟨(retrievePayload_nil_envelope (Except.ok ()) none none).1 rfl rfl rfl,
    (retrievePayload_nil_envelope (Except.ok ()) (some 7) none).2 rfl⟩

/-- C7: extracting the beacon block or the blob sidecars from an ABCI
request tx slot is total and never indexes out of bounds: a nil request
yields `ErrNilABCIRequest`, an empty (or nil) tx list yields
`ErrNoBeaconBlockInRequest`, an index at or past the tx-list length
yields `ErrBzIndexOutOfBounds`, and a nil tx at the index yields
`ErrNilBeaconBlockInRequest` — for both
`ReadOnlyBeaconBlockFromABCIRequest` and `GetBlobSideCars`. -/
theorem abciRequest_extraction_total
    (blockFromSSZ : Bytes → Nat → Except ABCITypesErr Nat)
    (unmarshalSSZ : Bytes → Except ABCITypesErr Nat)
    (req : Option ABCIRequestM) (bzIndex forkVersion : Nat) :
    (req = none →
      ReadOnlyBeaconBlockFromABCIRequest blockFromSSZ req bzIndex forkVersion
          = Except.error ABCITypesErr.ErrNilABCIRequest ∧
      GetBlobSideCars unmarshalSSZ req bzIndex
          = Except.error ABCITypesErr.ErrNilABCIRequest) ∧
    (∀ r, req = some r → r.txs.length = 0 →
      ReadOnlyBeaconBlockFromABCIRequest blockFromSSZ req bzIndex forkVersion
          = Except.error ABCITypesErr.ErrNoBeaconBlockInRequest ∧
      GetBlobSideCars unmarshalSSZ req bzIndex
          = Except.error ABCITypesErr.ErrNoBeaconBlockInRequest) ∧
    (∀ r, req = some r → r.txs.length ≠ 0 → bzIndex ≥ r.txs.length →
      ReadOnlyBeaconBlockFromABCIRequest blockFromSSZ req bzIndex forkVersion
          = Except.error ABCITypesErr.ErrBzIndexOutOfBounds ∧
      GetBlobSideCars unmarshalSSZ req bzIndex
          = Except.error ABCITypesErr.ErrBzIndexOutOfBounds) ∧
    (∀ r, req = some r → bzIndex < r.txs.length →
      r.txs.getD bzIndex none = none →
      ReadOnlyBeaconBlockFromABCIRequest blockFromSSZ req bzIndex forkVersion
          = Except.error ABCITypesErr.ErrNilBeaconBlockInRequest ∧
      GetBlobSideCars unmarshalSSZ req bzIndex
          = Except.error ABCITypesErr.ErrNilBeaconBlockInRequest) := by
  refine ⟨?_, ?_, ?_, ?_⟩
  · intro h
    subst h
    exact ⟨rfl, rfl⟩
  · intro r hr h0
    subst hr
    simp [ReadOnlyBeaconBlockFromABCIRequest, GetBlobSideCars, h0]
  · intro r hr h0 hge
    subst hr
    simp [ReadOnlyBeaconBlockFromABCIRequest, GetBlobSideCars, h0, hge]
  · intro r hr hlt hnil
    subst hr
    have h0 : r.txs.length ≠ 0 := by omega
    have hge : ¬ bzIndex ≥ r.txs.length := by omega
    simp only [List.getD, List.get?_eq_getElem?] at hnil
    simp [ReadOnlyBeaconBlockFromABCIRequest, GetBlobSideCars, h0, hge, hnil]

/-- C7 witness: the four error cases at concrete requests (nil request;
empty tx list; index 5 into a single-tx list; nil tx at index 0), for
both extraction functions. -/
theorem abciRequest_extraction_total_witness :
    (ReadOnlyBeaconBlockFromABCIRequest (fun _ _ => Except.ok 0) none 0 0
        = Except.error ABCITypesErr.ErrNilABCIRequest ∧
      GetBlobSideCars (fun _ => Except.ok 0) none 0
        = Except.error ABCITypesErr.ErrNilABCIRequest) ∧
    (ReadOnlyBeaconBlockFromABCIRequest (fun _ _ => Except.ok 0)
        (some (ABCIRequestM.mk [])) 0 0
        = Except.error ABCITypesErr.ErrNoBeaconBlockInRequest ∧
      GetBlobSideCars (fun _ => Except.ok 0) (some (ABCIRequestM.mk [])) 0
        = Except.error ABCITypesErr.ErrNoBeaconBlockInRequest) ∧
    (ReadOnlyBeaconBlockFromABCIRequest (fun _ _ => Except.ok 0)
        (some (ABCIRequestM.mk [some [1]])) 5 0
        = Except.error ABCITypesErr.ErrBzIndexOutOfBounds ∧
      GetBlobSideCars (fun _ => Except.ok 0)
        (some (ABCIRequestM.mk [some [1]])) 5
        = Except.error ABCITypesErr.ErrBzIndexOutOfBounds) ∧
    (ReadOnlyBeaconBlockFromABCIRequest (fun _ _ => Except.ok 0)
        (some (ABCIRequestM.mk [none])) 0 0
        = Except.error ABCITypesErr.ErrNilBeaconBlockInRequest ∧
      GetBlobSideCars (fun _ => Except.ok 0) (some (ABCIRequestM.mk [none])) 0
        = Except.error ABCITypesErr.ErrNilBeaconBlockInRequest) :=
  ⟨(abciRequest_extraction_total (fun _ _ => Except.ok 0)
      (fun _ => Except.ok 0) none 0 0).1 rfl,
    (abciRequest_extraction_total (fun _ _ => Except.ok 0)
      (fun _ => Except.ok 0) (some (ABCIRequestM.mk [])) 0 0).2.1
      (ABCIRequestM.mk []) rfl rfl,
    (abciRequest_extraction_total (fun _ _ => Except.ok 0)
      (fun _ => Except.ok 0) (some (ABCIRequestM.mk [some [1]])) 5 0).2.2.1
      (ABCIRequestM.mk [some [1]]) rfl (by decide) (by decide),
    (abciRequest_extraction_total (fun _ _ => Except.ok 0)
      (fun _ => Except.ok 0) (some (ABCIRequestM.mk [none])) 0 0).2.2.2
      (ABCIRequestM.mk [none]) rfl (by decide) rfl⟩
